import Mathlib

/-!
Verification of the REST query layer of an electrs-style blockchain index
server, shallowly embedded from `src/rest.rs`.

Transactions, scripthashes and block heights are modelled as natural
numbers; scripts are byte lists (`List Nat`); machine integers are `Nat`
with explicit wrapping where the source can overflow.  Components of the
repository that live outside `src/` (the mempool and chain history
queries, the scripthash digest) are either modelled from the spec (marked
`Modelled from the spec:`) or abstracted as function parameters.
-/

set_option maxHeartbeats 1000000

/-- HTTP-level error classes produced by the handlers in `rest.rs`
(`HttpError(StatusCode, String)`): 400 BadRequest, 404 NotFound,
422 UnprocessableEntity. -/
inductive HttpErr where
  | badRequest (msg : String)
  | notFound (msg : String)
  | unprocessable (msg : String)
deriving DecidableEq

deriving instance DecidableEq for Except

/-- `TTL_LONG` from `rest.rs`: cache ttl for static resources (5 years). -/
def TTL_LONG : Nat := 157784630

/-- `TTL_SHORT` from `rest.rs`: cache ttl for volatile resources. -/
def TTL_SHORT : Nat := 10

/-- `CONF_FINAL` from `rest.rs`: reorgs deeper than this are considered
unlikely. -/
def CONF_FINAL : Nat := 10

/-- Wrapping subtraction of 64-bit `usize` values, as `best_height() - height`
behaves in release builds. -/
def usizeSub (a b : Nat) : Nat :=
  (a + 18446744073709551616 - b) % 18446744073709551616

/-- `ttl_by_depth` from `rest.rs`: an unknown height gets `TTL_SHORT`; a known
height `h` gets `TTL_LONG` when `best_height - h >= CONF_FINAL`, else
`TTL_SHORT`. -/
def ttl_by_depth (height : Option Nat) (best : Nat) : Nat :=
  match height with
  | none => TTL_SHORT
  | some h => if CONF_FINAL ≤ usizeSub best h then TTL_LONG else TTL_SHORT

/-! ## Outpoint spend lookup (`GET /tx/:txid/outspend/:vout`) -/

/-- `TransactionStatus` (util), restricted to the fields the outspend endpoint
reads: built `From<Option<BlockId>>`, confirmed with the block height when a
confirming block exists. -/
structure TransactionStatusM where
  confirmed : Bool
  blockHeight : Option Nat
deriving DecidableEq

/-- `TransactionStatus::from(blockid)`: a `BlockId` is modelled by its
height. -/
def statusFromBlockId : Option Nat → TransactionStatusM
  | some h => ⟨true, some h⟩
  | none => ⟨false, none⟩

/-- `SpendingInput` from `new_index`: a found spend, with its confirming block
height (`none` for a mempool spend). -/
structure SpendingInputM where
  txid : Nat
  vin : Nat
  confirmed : Option Nat
deriving DecidableEq

/-- `SpendingValue` from `rest.rs`. -/
structure SpendingValueM where
  spent : Bool
  txid : Option Nat
  vin : Option Nat
  status : Option TransactionStatusM
deriving DecidableEq

/-- `SpendingValue::default()`: `spent: false`, all optional fields absent. -/
def SpendingValue_default : SpendingValueM := ⟨false, none, none, none⟩

/-- `SpendingValue::from(spend: SpendingInput)`. -/
def SpendingValue_from (s : SpendingInputM) : SpendingValueM :=
  ⟨true, some s.txid, some s.vin, some (statusFromBlockId s.confirmed)⟩

/-- The outspend endpoint body from `rest.rs`
(`GET /tx/:txid/outspend/:vout`): `query.lookup_spend(..)` mapped through
`SpendingValue::default` / `SpendingValue::from`, with
`ttl_by_depth(spend.status.and_then(block_height))`.  Returns the response
value and its ttl. -/
def outspendHandler (lookupSpend : Option SpendingInputM) (best : Nat) :
    SpendingValueM × Nat :=
  let spend := match lookupSpend with
    | none => SpendingValue_default
    | some s => SpendingValue_from s
  let ttl := ttl_by_depth (spend.status.bind (fun st => st.blockHeight)) best
  (spend, ttl)

/-! ## Address network check (`address_to_scripthash`) -/

/-- `crate::chain::Network` (non-liquid). -/
inductive Network where
  | bitcoin
  | testnet
  | testnet4
  | regtest
  | signet
deriving DecidableEq

/-- A parsed address: the network its version bytes decode to, and its
scriptPubKey bytes.  Parsing itself lives in the `bitcoin` crate, so the
embedding receives the parse result. -/
structure AddrM where
  net : Network
  spk : List Nat
deriving DecidableEq

/-- The network test from `address_to_scripthash` in `rest.rs`:
`addr_network == network || (addr_network == Testnet && matches!(network,
Regtest | Signet | Testnet4))`. -/
def isExpectedNet (addrNet configNet : Network) : Bool :=
  addrNet == configNet ||
    (addrNet == Network.testnet &&
      (configNet == Network.regtest || configNet == Network.signet ||
        configNet == Network.testnet4))

/-- `address_to_scripthash` from `rest.rs`.  `sha` abstracts
`compute_script_hash` (SHA256 of the scriptPubKey, implemented outside
`src/`); `parsed` is the result of `address::Address::from_str`. -/
def address_to_scripthash (sha : List Nat → List Nat) (parsed : Option AddrM)
    (network : Network) : Except HttpErr (List Nat) :=
  match parsed with
  | none => Except.error (HttpErr.badRequest "Invalid Bitcoin address")
  | some addr =>
    if isExpectedNet addr.net network then Except.ok (sha addr.spk)
    else Except.error (HttpErr.badRequest "Address on invalid network")

/-! ## Merged per-scripthash history (`GET /address|scripthash/:hash/txs`) -/

/-- `TxidLocation` from `rest.rs` (`Mempool`, `Chain(height)`, `None`). -/
inductive TxidLocation where
  | mempool
  | chain (height : Nat)
  | nowhere
deriving DecidableEq

/-- The query state visible to the history handler: the mempool txid map, the
per-scripthash mempool history list (page order), the per-scripthash
confirmed history as `(txid, height)` newest first, and the
txid-to-confirming-height map. -/
structure QueryState where
  mempoolTxids : List Nat
  mempoolHist : Nat → List Nat
  chainHist : Nat → List (Nat × Nat)
  txConfirmedHeight : Nat → Option Nat

/-- Cursor anchoring shared by the history queries: with no cursor the list is
returned whole; with cursor `t` the entries strictly after the entry keyed
`t` are returned (when `t` never occurs, the anchor is never reached and
nothing is returned). -/
def pageAfter {α : Type} (key : α → Nat) (after : Option Nat) (l : List α) :
    List α :=
  match after with
  | none => l
  | some t => (l.dropWhile (fun e => key e != t)).drop 1

/-- Modelled from the spec: `Mempool::history` is outside `src/`.  The spec's
pagination cursor rule — the page request "anchors to X within the in-memory
list and returns the next N entries in list order". -/
def mempoolHistory (st : QueryState) (scripthash : Nat) (after : Option Nat)
    (limit : Nat) : List Nat :=
  (pageAfter id after (st.mempoolHist scripthash)).take limit

/-- Modelled from the spec: `ChainQuery::history` is outside `src/`.  The
confirmed history is scanned newest first, starting no higher than
`confirmedBlockHeight` when given; with a cursor the page "starts after
(txid, h)" — it anchors to the cursor txid and returns what follows, up to
`limit` entries. -/
def chainHistory (st : QueryState) (scripthash : Nat) (after : Option Nat)
    (confirmedBlockHeight : Option Nat) (limit : Nat) : List (Nat × Nat) :=
  let base := match confirmedBlockHeight with
    | none => st.chainHist scripthash
    | some h => (st.chainHist scripthash).filter (fun e => decide (e.2 ≤ h))
  (pageAfter Prod.fst after base).take limit

/-- `find_txid` from `rest.rs`: the mempool is consulted first, then the
chain's confirming-block lookup. -/
def find_txid (st : QueryState) (txid : Nat) : TxidLocation :=
  if st.mempoolTxids.contains txid then TxidLocation.mempool
  else match st.txConfirmedHeight txid with
    | some h => TxidLocation.chain h
    | none => TxidLocation.nowhere

/-- The merged-history handler from `rest.rs`
(`GET /address|scripthash/:hash/txs`): resolve `after_txid` once with
`find_txid`; in the `Mempool` case extend with the mempool page; in the
`None` case fail 422; in the `Chain` case record the confirmed height; then,
when fewer than `max_txs` entries were gathered, extend with the chain page,
passing `after_txid` only when no entries were gathered so far.  Entries are
`(txid, confirming height?)`, `none` meaning unconfirmed. -/
def scripthashTxs (st : QueryState) (scripthash : Nat) (after : Option Nat)
    (maxTxs : Nat) : Except HttpErr (List (Nat × Option Nat)) :=
  let loc := match after with
    | some t => find_txid st t
    | none => TxidLocation.mempool
  match loc with
  | TxidLocation.nowhere =>
    Except.error (HttpErr.unprocessable "after_txid not found")
  | TxidLocation.mempool =>
    let txs := (mempoolHistory st scripthash after maxTxs).map
      (fun x => (x, (none : Option Nat)))
    let txs :=
      if txs.length < maxTxs then
        let afterRef := if txs.isEmpty then after else none
        txs ++ (chainHistory st scripthash afterRef none
          (maxTxs - txs.length)).map (fun e => (e.1, some e.2))
      else txs
    Except.ok txs
  | TxidLocation.chain h =>
    let txs : List (Nat × Option Nat) := []
    let txs :=
      if txs.length < maxTxs then
        let afterRef := if txs.isEmpty then after else none
        txs ++ (chainHistory st scripthash afterRef (some h)
          (maxTxs - txs.length)).map (fun e => (e.1, some e.2))
      else txs
    Except.ok txs

/-- Concrete query state realising spec scenario S4: scripthash 0 is touched
by mempool tx 1 and by chain tx 2 confirmed at height 5. -/
def stS4 : QueryState where
  mempoolTxids := [1]
  mempoolHist := fun sh => if sh = 0 then [1] else []
  chainHist := fun sh => if sh = 0 then [(2, 5)] else []
  txConfirmedHeight := fun t => if t = 2 then some 5 else none

/-! ## Broadcast test-accept pre-checks (`POST /txs/test`) -/

/-- A hex digit as accepted by the `hex` crate. -/
def validHexChar (c : Char) : Bool :=
  (decide ('0' ≤ c) && decide (c ≤ '9')) ||
    (decide ('a' ≤ c) && decide (c ≤ 'f')) ||
    (decide ('A' ≤ c) && decide (c ≤ 'F'))

/-- `Vec::<u8>::from_hex` succeeds exactly on even-length strings of hex
digits. -/
def validHex (s : List Char) : Bool :=
  decide (s.length % 2 = 0) && s.all validHexChar

/-- Errors of the `POST /txs/test` handler (all map to 400 BadRequest). -/
inductive PrecheckErr where
  | tooMany
  | invalidSize (index : Nat)
  | invalidHex (index : Nat)
deriving DecidableEq

/-- The indexed `try_for_each` pre-check loop of `POST /txs/test` in
`rest.rs`: each hex string must have length in `120..800_000` (checked
first) and parse as hex; the first offender aborts with its index. -/
def precheckFrom (i : Nat) : List (List Char) → Except PrecheckErr Unit
  | [] => Except.ok ()
  | tx :: rest =>
    if ¬(120 ≤ tx.length ∧ tx.length < 800000) then
      Except.error (PrecheckErr.invalidSize i)
    else if validHex tx then precheckFrom (i + 1) rest
    else Except.error (PrecheckErr.invalidHex i)

/-- The `POST /txs/test` handler from `rest.rs` up to the upstream call: more
than 25 transactions is an error, then the pre-checks run; on success the
whole batch is forwarded to `test_mempool_accept` (modelled by returning
it). -/
def testTxsHandler (txhexes : List (List Char)) :
    Except PrecheckErr (List (List Char)) :=
  if txhexes.length > 25 then Except.error PrecheckErr.tooMany
  else (precheckFrom 0 txhexes).map (fun _ => txhexes)

/-! ## Multi-address POST parsing (`POST /addresses|scripthashes/txs`) -/

/-- Value of a hex digit character. -/
def hexVal (c : Char) : Option Nat :=
  if '0' ≤ c ∧ c ≤ '9' then some (c.toNat - 48)
  else if 'a' ≤ c ∧ c ≤ 'f' then some (c.toNat - 87)
  else if 'A' ≤ c ∧ c ≤ 'F' then some (c.toNat - 55)
  else none

/-- `hex::decode`: pairs of hex digits to bytes; odd length or a bad digit
fails. -/
def hexDecode : List Char → Option (List Nat)
  | [] => some []
  | [_] => none
  | a :: b :: rest =>
    match hexVal a, hexVal b, hexDecode rest with
    | some x, some y, some r => some ((16 * x + y) :: r)
    | _, _, _ => none

/-- `parse_scripthash` from `rest.rs`: hex-decode and require exactly 32
bytes (success half; the error is dropped by the callers below). -/
def parse_scripthash (s : List Char) : Option (List Nat) :=
  match hexDecode s with
  | none => none
  | some bytes => if bytes.length = 32 then some bytes else none

/-- `MULTI_ADDRESS_LIMIT` from `rest.rs`. -/
def MULTI_ADDRESS_LIMIT : Nat := 300

/-- The `POST /scripthashes/txs` parsing stage from `rest.rs`: reject bodies
longer than `(8 + 64) * MULTI_ADDRESS_LIMIT` bytes or lists longer than
`MULTI_ADDRESS_LIMIT`, then `filter_map` the elements through
`to_scripthash(..).ok()` — elements that fail to parse are dropped — and
run the history query (`histGroup`, abstract here) over the survivors. -/
def multiScripthashTxs {α : Type} (histGroup : List (List Nat) → List α)
    (bodyLen : Nat) (inputs : List (List Char)) : Except HttpErr (List α) :=
  if bodyLen > (8 + 64) * MULTI_ADDRESS_LIMIT then
    Except.error (HttpErr.unprocessable "body too long")
  else if inputs.length > MULTI_ADDRESS_LIMIT then
    Except.error (HttpErr.unprocessable "body too long")
  else Except.ok (histGroup (inputs.filterMap parse_scripthash))

/-! ## Script-type classification (`TxOutValue::new`) -/

/-- `Script::is_empty`. -/
def script_is_empty (s : List Nat) : Bool := s.length == 0

/-- `Script::is_op_return`: first byte is `OP_RETURN` (0x6a). -/
def script_is_op_return (s : List Nat) : Bool :=
  decide (1 ≤ s.length) && s.getD 0 0 == 0x6a

/-- `Script::is_p2pk`: 67 bytes `PUSHBYTES_65 <65> CHECKSIG` or 35 bytes
`PUSHBYTES_33 <33> CHECKSIG`. -/
def script_is_p2pk (s : List Nat) : Bool :=
  (s.length == 67 && s.getD 0 0 == 0x41 && s.getD 66 0 == 0xac) ||
    (s.length == 35 && s.getD 0 0 == 0x21 && s.getD 34 0 == 0xac)

/-- `Script::is_p2pkh`: 25 bytes `DUP HASH160 PUSHBYTES_20 <20> EQUALVERIFY
CHECKSIG`. -/
def script_is_p2pkh (s : List Nat) : Bool :=
  s.length == 25 && s.getD 0 0 == 0x76 && s.getD 1 0 == 0xa9 &&
    s.getD 2 0 == 0x14 && s.getD 23 0 == 0x88 && s.getD 24 0 == 0xac

/-- `Script::is_p2sh`: 23 bytes `HASH160 PUSHBYTES_20 <20> EQUAL`. -/
def script_is_p2sh (s : List Nat) : Bool :=
  s.length == 23 && s.getD 0 0 == 0xa9 && s.getD 1 0 == 0x14 &&
    s.getD 22 0 == 0x87

/-- `Script::is_v0_p2wpkh`: 22 bytes `OP_0 PUSHBYTES_20 <20>`. -/
def script_is_v0_p2wpkh (s : List Nat) : Bool :=
  s.length == 22 && s.getD 0 0 == 0x00 && s.getD 1 0 == 0x14

/-- `Script::is_v0_p2wsh`: 34 bytes `OP_0 PUSHBYTES_32 <32>`. -/
def script_is_v0_p2wsh (s : List Nat) : Bool :=
  s.length == 34 && s.getD 0 0 == 0x00 && s.getD 1 0 == 0x20

/-- `is_v1_p2tr` from `rest.rs`: 34 bytes `OP_PUSHNUM_1 PUSHBYTES_32
<32>`. -/
def is_v1_p2tr (s : List Nat) : Bool :=
  s.length == 34 && s.getD 0 0 == 0x51 && s.getD 1 0 == 0x20

/-- `is_anchor` from `rest.rs`: exactly `OP_PUSHNUM_1 PUSHBYTES_2 0x4e
0x73`. -/
def is_anchor (s : List Nat) : Bool :=
  s.length == 4 && s.getD 0 0 == 0x51 && s.getD 1 0 == 0x02 &&
    s.getD 2 0 == 0x4e && s.getD 3 0 == 0x73

/-- First bytes that make `Script::is_provably_unspendable` true: opcodes the
`bitcoin` crate classifies as `ReturnOp` or `IllegalOp` in legacy context
(OP_RESERVED, OP_VER, OP_VERIF, OP_VERNOTIF, OP_RETURN, the disabled
splice/bitwise/arithmetic opcodes, OP_RESERVED1/2, and 0xba..0xff). -/
def unspendableFirst (b : Nat) : Bool :=
  b == 0x50 || b == 0x62 || b == 0x65 || b == 0x66 || b == 0x6a ||
    b == 0x7e || b == 0x7f || b == 0x80 || b == 0x81 || b == 0x83 ||
    b == 0x84 || b == 0x85 || b == 0x86 || b == 0x89 || b == 0x8a ||
    b == 0x8d || b == 0x8e || b == 0x95 || b == 0x96 || b == 0x97 ||
    b == 0x98 || b == 0x99 || (decide (0xba ≤ b) && decide (b ≤ 0xff))

/-- `Script::is_provably_unspendable`. -/
def script_is_provably_unspendable (s : List Nat) : Bool :=
  decide (1 ≤ s.length) && unspendableFirst (s.getD 0 0)

/-- `is_bare_multisig` from `rest.rs`: at least 37 bytes, ends
`OP_CHECKMULTISIG`, preceded by `OP_PUSHNUM_1..15`, and the first byte is an
`OP_PUSHNUM` between `OP_PUSHNUM_1` and that one. -/
def is_bare_multisig (s : List Nat) : Bool :=
  decide (37 ≤ s.length) && s.getD (s.length - 1) 0 == 0xae &&
    decide (0x51 ≤ s.getD (s.length - 2) 0) &&
    decide (s.getD (s.length - 2) 0 ≤ 0x5f) &&
    decide (0x51 ≤ s.getD 0 0) &&
    decide (s.getD 0 0 ≤ s.getD (s.length - 2) 0)

/-- The `script_type` if/else chain of `TxOutValue::new` in `rest.rs`
(non-liquid, so the leading `is_fee` branch is constantly false). -/
def script_type (s : List Nat) : String :=
  if script_is_empty s then "empty"
  else if script_is_op_return s then "op_return"
  else if script_is_p2pk s then "p2pk"
  else if script_is_p2pkh s then "p2pkh"
  else if script_is_p2sh s then "p2sh"
  else if script_is_v0_p2wpkh s then "v0_p2wpkh"
  else if script_is_v0_p2wsh s then "v0_p2wsh"
  else if is_v1_p2tr s then "v1_p2tr"
  else if is_anchor s then "anchor"
  else if script_is_provably_unspendable s then "provably_unspendable"
  else if is_bare_multisig s then "multisig"
  else "unknown"

/-- The classification checks of `TxOutValue::new`, in source order, with the
type names they report. -/
def classifiers : List (String × (List Nat → Bool)) :=
  [("empty", script_is_empty), ("op_return", script_is_op_return),
    ("p2pk", script_is_p2pk), ("p2pkh", script_is_p2pkh),
    ("p2sh", script_is_p2sh), ("v0_p2wpkh", script_is_v0_p2wpkh),
    ("v0_p2wsh", script_is_v0_p2wsh), ("v1_p2tr", is_v1_p2tr),
    ("anchor", is_anchor),
    ("provably_unspendable", script_is_provably_unspendable),
    ("multisig", is_bare_multisig)]

/-- An if/else chain over an ordered list of checks, defaulting to
`"unknown"`: `script_type` is exactly `classifyChain classifiers`. -/
def classifyChain : List (String × (List Nat → Bool)) → List Nat → String
  | [], _ => "unknown"
  | (name, p) :: rest, s => if p s then name else classifyChain rest s

/-- The source chain with `provably_unspendable` moved to the front — a
permutation of `classifiers`. -/
def classifiersFront : List (String × (List Nat → Bool)) :=
  ("provably_unspendable", script_is_provably_unspendable) ::
    [("empty", script_is_empty), ("op_return", script_is_op_return),
      ("p2pk", script_is_p2pk), ("p2pkh", script_is_p2pkh),
      ("p2sh", script_is_p2sh), ("v0_p2wpkh", script_is_v0_p2wpkh),
      ("v0_p2wsh", script_is_v0_p2wsh), ("v1_p2tr", is_v1_p2tr),
      ("anchor", is_anchor), ("multisig", is_bare_multisig)]

/-! ## `prepare_txs` and `TransactionValue::new` -/

/-- A transaction input, as far as `prepare_txs` inspects it: the previous
outpoint and whether `has_prevout` holds (false for coinbase). -/
structure TxInM where
  prevTxid : Nat
  prevVout : Nat
  hasPrevout : Bool
deriving DecidableEq

/-- A transaction, as far as `prepare_txs` inspects it. -/
structure TxM where
  txid : Nat
  inputs : List TxInM
deriving DecidableEq

/-- The fields of `TransactionValue` the claims are about: the txid, the
sigop count, and the confirmation status (the confirming height). -/
structure TxValueM where
  txid : Nat
  sigops : Nat
  status : Option Nat
deriving DecidableEq

/-- The outpoints collected per transaction in `prepare_txs`: inputs with
`has_prevout`, mapped to `previous_output`. -/
def txOutpoints (tx : TxM) : List (Nat × Nat) :=
  (tx.inputs.filter (fun i => i.hasPrevout)).map
    (fun i => (i.prevTxid, i.prevVout))

/-- All outpoints collected by `prepare_txs` over the batch. -/
def collectOutpoints (txs : List (TxM × Option Nat)) : List (Nat × Nat) :=
  txs.flatMap (fun p => txOutpoints p.1)

/-- `Query::lookup_txos` (outside `src/`): the found subset of the requested
outpoints, as an association list into the txo store (a txo is modelled by
its value). -/
def lookupTxos (store : Nat × Nat → Option Nat) (outs : List (Nat × Nat)) :
    List ((Nat × Nat) × Nat) :=
  outs.filterMap (fun o => (store o).map (fun v => (o, v)))

/-- Lookup in the prevout map handed to `TransactionValue::new` (the
`HashMap<OutPoint, TxOut>`, as an association list). -/
def findTxo : List ((Nat × Nat) × Nat) → (Nat × Nat) → Option Nat
  | [], _ => none
  | e :: rest, o => if e.1 = o then some e.2 else findTxo rest o

/-- `extract_tx_prevouts` (util, outside `src/`): resolve every input that
`has_prevout` against the prevout map; any miss fails the transaction. -/
def extractPrevouts (m : List ((Nat × Nat) × Nat)) :
    List TxInM → Option (List Nat)
  | [] => some []
  | i :: rest =>
    if i.hasPrevout then
      match findTxo m (i.prevTxid, i.prevVout), extractPrevouts m rest with
      | some v, some r => some (v :: r)
      | _, _ => none
    else extractPrevouts m rest

/-- `TransactionValue::new` from `rest.rs`, to the extent it can fail:
`extract_tx_prevouts` first, then `transaction_sigop_count` (abstracted as
`sigops`, which may fail); on success the value carries the txid, the sigop
count and the status from the block id. -/
def TransactionValue_new (sigops : TxM → List Nat → Option Nat) (tx : TxM)
    (blockid : Option Nat) (m : List ((Nat × Nat) × Nat)) : Option TxValueM :=
  match extractPrevouts m tx.inputs with
  | none => none
  | some pv =>
    match sigops tx pv with
    | none => none
    | some n => some ⟨tx.txid, n, blockid⟩

/-- `prepare_txs` from `rest.rs`: collect the prevout outpoints of the whole
batch, look them up once, then `filter_map` the batch through
`TransactionValue::new(..).ok()`. -/
def prepare_txs (sigops : TxM → List Nat → Option Nat)
    (store : Nat × Nat → Option Nat) (txs : List (TxM × Option Nat)) :
    List TxValueM :=
  let m := lookupTxos store (collectOutpoints txs)
  txs.filterMap (fun p => TransactionValue_new sigops p.1 p.2 m)

/-- Per-input resolution directly against the txo store — the success
criterion `prepare_txs` effectively applies to each transaction. -/
def storePrevouts (store : Nat × Nat → Option Nat) :
    List TxInM → Option (List Nat)
  | [] => some []
  | i :: rest =>
    if i.hasPrevout then
      match store (i.prevTxid, i.prevVout), storePrevouts store rest with
      | some v, some r => some (v :: r)
      | _, _ => none
    else storePrevouts store rest

/-! ## Theorems -/

theorem usizeSub_of_le (a b : Nat) (hb : b ≤ a) (ha : a < 18446744073709551616) :
    usizeSub a b = a - b := by
  unfold usizeSub
  omega

/-- Claim C5 (amended): for a block whose height is known, the TTL computed by
`ttl_by_depth` is the long TTL iff the best chain height minus the height is
at least 10 — equivalently, iff the depth `tip - h + 1` is at least 11; an
unknown height always gets the short TTL, and no other value than the two
TTLs is ever produced. -/
theorem ttlByDepth_longIffDepthEleven (best h : Nat) (hh : h ≤ best)
    (hb : best < 18446744073709551616) :
    (ttl_by_depth (some h) best = TTL_LONG ↔ 10 ≤ best - h) ∧
    (ttl_by_depth (some h) best = TTL_LONG ↔ 11 ≤ best - h + 1) ∧
    ttl_by_depth none best = TTL_SHORT ∧
    (ttl_by_depth (some h) best = TTL_LONG ∨
      ttl_by_depth (some h) best = TTL_SHORT) := by
  have hsub : usizeSub best h = best - h := usizeSub_of_le best h hh hb
  by_cases hc : 10 ≤ best - h
  · have he : ttl_by_depth (some h) best = TTL_LONG := by
      simp [ttl_by_depth, hsub, CONF_FINAL, hc]
    exact ⟨⟨fun _ => hc, fun _ => he⟩, ⟨fun _ => by omega, fun _ => he⟩, rfl,
      Or.inl he⟩
  · have he : ttl_by_depth (some h) best = TTL_SHORT := by
      simp [ttl_by_depth, hsub, CONF_FINAL, hc]
    refine ⟨⟨fun hl => ?_, fun hr => absurd hr hc⟩,
      ⟨fun hl => ?_, fun hr => absurd (by omega : 10 ≤ best - h) hc⟩, rfl,
      Or.inr he⟩ <;>
    · exact absurd (he.symm.trans hl) (by decide)

/-- Claim C5 witness: the amended theorem applied at tip 20 and block height
0 (depth 21) yields the long TTL. -/
theorem ttlByDepth_longIffDepthEleven_witness :
    ttl_by_depth (some 0) 20 = TTL_LONG :=
  (ttlByDepth_longIffDepthEleven 20 0 (by omega) (by omega)).1.mpr (by omega)

/-- Claim C5 counterexample: a block at depth exactly 10 (tip height 9,
block height 0, depth = 9 - 0 + 1 = 10) is cached with the short TTL, so
the claim's "equivalently, a block at depth ≥ 10 is cached long" does not
hold of `ttl_by_depth`. -/
theorem ttlByDepth_depthTen_short :
    ttl_by_depth (some 0) 9 = TTL_SHORT ∧ 10 ≤ 9 - 0 + 1 := by
  exact ⟨by decide, by omega⟩

/-- Claim C10: when `lookup_spend` finds nothing the outspend endpoint still
succeeds, answering the default `SpendingValue` — `spent: false` with the
`txid`, `vin` and `status` fields absent — under the short TTL; when a
spending input is found, `spent: true` and all three fields are present. -/
theorem outspend_defaultWhenUnspent (best : Nat) (s : SpendingInputM) :
    outspendHandler none best = (SpendingValue_default, TTL_SHORT) ∧
    (outspendHandler none best).1 = ⟨false, none, none, none⟩ ∧
    (outspendHandler (some s) best).1 =
      ⟨true, some s.txid, some s.vin, some (statusFromBlockId s.confirmed)⟩ :=
  ⟨rfl, rfl, rfl⟩

/-- Claim C4: `address_to_scripthash` succeeds exactly when the address
parsed and its network matches the configured network up to the
test-variant family (a Testnet-decoding address is also accepted on
Regtest, Signet and Testnet4); a parsed address failing the check is
rejected with the wrong-network error, and success returns the scripthash
digest of the address's scriptPubKey. -/
theorem addressToScripthash_networkCheck (sha : List Nat → List Nat)
    (parsed : Option AddrM) (net : Network) :
    ((∃ hsh, address_to_scripthash sha parsed net = Except.ok hsh) ↔
      ∃ a, parsed = some a ∧ (a.net = net ∨ (a.net = Network.testnet ∧
        (net = Network.regtest ∨ net = Network.signet ∨
          net = Network.testnet4)))) ∧
    (∀ a, parsed = some a → isExpectedNet a.net net = false →
      address_to_scripthash sha parsed net =
        Except.error (HttpErr.badRequest "Address on invalid network")) ∧
    (∀ a, parsed = some a → isExpectedNet a.net net = true →
      address_to_scripthash sha parsed net = Except.ok (sha a.spk)) := by
  have hnet : ∀ a b : Network, isExpectedNet a b = true ↔
      (a = b ∨ (a = Network.testnet ∧ (b = Network.regtest ∨
        b = Network.signet ∨ b = Network.testnet4))) := by
    intro a b
    simp [isExpectedNet, Bool.or_eq_true, Bool.and_eq_true, beq_iff_eq,
      or_assoc]
  cases parsed with
  | none =>
    refine ⟨⟨fun ⟨hsh, hh⟩ => ?_, fun ⟨a, ha, _⟩ => by simp at ha⟩,
      fun a ha => by simp at ha, fun a ha => by simp at ha⟩
    simp [address_to_scripthash] at hh
  | some a =>
    by_cases hexp : isExpectedNet a.net net = true
    · refine ⟨⟨fun _ => ⟨a, rfl, (hnet a.net net).mp hexp⟩, fun _ => ?_⟩,
        fun b hb hfalse => ?_, fun b hb _ => ?_⟩
      · exact ⟨sha a.spk, by simp [address_to_scripthash, hexp]⟩
      · cases hb
        rw [hexp] at hfalse
        cases hfalse
      · cases hb
        simp [address_to_scripthash, hexp]
    · have hexp0 : isExpectedNet a.net net = false := by
        revert hexp
        cases isExpectedNet a.net net <;> simp
      refine ⟨⟨fun ⟨hsh, hh⟩ => ?_, fun ⟨b, hb, hcase⟩ => ?_⟩,
        fun b hb _ => ?_, fun b hb htrue => ?_⟩
      · simp [address_to_scripthash, hexp0] at hh
      · cases hb
        exact absurd ((hnet a.net net).mpr hcase) hexp
      · cases hb
        simp [address_to_scripthash, hexp0]
      · cases hb
        rw [htrue] at hexp0
        cases hexp0

/-- Claim C4 witness: a Testnet-decoding address is accepted when the
configured network is Regtest, returning the digest of its scriptPubKey
(the digest abstracted as the identity here). -/
theorem addressToScripthash_networkCheck_witness :
    address_to_scripthash id (some ⟨Network.testnet, [0, 20]⟩)
      Network.regtest = Except.ok [0, 20] :=
  (addressToScripthash_networkCheck id (some ⟨Network.testnet, [0, 20]⟩)
    Network.regtest).2.2 ⟨Network.testnet, [0, 20]⟩ rfl (by decide)

/-- Claim C1 (amended): `after_txid` is resolved through `find_txid` and the
cases behave as follows.  Unknown to both: 422 `UnprocessableCursor`, no
entries.  Confirmed at height `h`: the mempool page is skipped and the chain
page is queried with the txid and `confirmed_block_height = h`.  In the
mempool: the mempool page starts after the txid and, provided that page is
non-empty, the chain page is not constrained by txid; when the mempool page
comes back empty the txid is passed through to the chain query, which
anchors on it. -/
theorem afterTxidDispatch (st : QueryState) (sh t maxTxs : Nat) :
    (find_txid st t = TxidLocation.nowhere →
      scripthashTxs st sh (some t) maxTxs =
        Except.error (HttpErr.unprocessable "after_txid not found")) ∧
    (∀ h, find_txid st t = TxidLocation.chain h → 0 < maxTxs →
      scripthashTxs st sh (some t) maxTxs =
        Except.ok ((chainHistory st sh (some t) (some h) maxTxs).map
          (fun e => (e.1, some e.2)))) ∧
    (find_txid st t = TxidLocation.mempool →
      mempoolHistory st sh (some t) maxTxs ≠ [] →
      scripthashTxs st sh (some t) maxTxs =
        Except.ok ((mempoolHistory st sh (some t) maxTxs).map
            (fun x => (x, (none : Option Nat))) ++
          (if (mempoolHistory st sh (some t) maxTxs).length < maxTxs then
            (chainHistory st sh none none
              (maxTxs - (mempoolHistory st sh (some t) maxTxs).length)).map
              (fun e => (e.1, some e.2))
          else []))) ∧
    (find_txid st t = TxidLocation.mempool →
      mempoolHistory st sh (some t) maxTxs = [] →
      scripthashTxs st sh (some t) maxTxs =
        Except.ok (if 0 < maxTxs then
          (chainHistory st sh (some t) none maxTxs).map
            (fun e => (e.1, some e.2))
        else [])) := by
  refine ⟨fun hloc => ?_, fun h hloc hmax => ?_, fun hloc hne => ?_,
    fun hloc hnil => ?_⟩
  · simp only [scripthashTxs, hloc]
  · simp only [scripthashTxs, hloc]
    simp [hmax]
  · rcases hm : mempoolHistory st sh (some t) maxTxs with _ | ⟨a, l⟩
    · exact absurd hm hne
    · simp only [scripthashTxs, hloc, hm]
      by_cases hlt : l.length + 1 < maxTxs
      · simp [hlt]
      · simp [hlt]
  · simp only [scripthashTxs, hloc, hnil]
    by_cases hmax : 0 < maxTxs
    · simp [hmax]
    · simp [hmax]

/-- Claim C1 witness: the amended theorem applied to the S4 state — an
unknown cursor gives 422; a chain cursor (tx 2 at height 5) skips the
mempool and anchors the chain page; a mempool cursor (tx 1) whose mempool
page is empty forwards the txid to the chain query, which then returns
nothing. -/
theorem afterTxidDispatch_witness :
    scripthashTxs stS4 0 (some 9) 25 =
        Except.error (HttpErr.unprocessable "after_txid not found") ∧
    scripthashTxs stS4 0 (some 2) 25 = Except.ok [] ∧
    scripthashTxs stS4 0 (some 1) 25 = Except.ok [] := by
  refine ⟨(afterTxidDispatch stS4 0 9 25).1 (by decide), ?_, ?_⟩
  · have h2 := (afterTxidDispatch stS4 0 2 25).2.1 5 (by decide) (by omega)
    rw [h2]
    decide
  · have h4 := (afterTxidDispatch stS4 0 1 25).2.2.2 (by decide) (by decide)
    rw [h4]
    decide

/-- Claim C1 counterexample: in the S4 state the cursor tx 1 is located in
the mempool, yet the response is not the mempool page followed by a
txid-unconstrained chain page (which would contain chain tx 2): because the
mempool page after tx 1 is empty, the txid is forwarded to the chain query
and the chain page is constrained — emptied — by it. -/
theorem afterTxidMempool_chainPage_cex :
    find_txid stS4 1 = TxidLocation.mempool ∧
    scripthashTxs stS4 0 (some 1) 25 ≠
      Except.ok ((mempoolHistory stS4 0 (some 1) 25).map
          (fun x => (x, (none : Option Nat))) ++
        (chainHistory stS4 0 none none
          (25 - (mempoolHistory stS4 0 (some 1) 25).length)).map
          (fun e => (e.1, some e.2))) := by
  exact ⟨by decide, by decide⟩

/-- Claim C2 evaluated at the S4 state: the first call merges the mempool
page before the chain page and returns `[T_m, T_c]` as the claim states,
but the follow-up call with `after_txid = T_m` returns the empty list
rather than `[T_c]`. -/
theorem mergedHistoryS4_eval :
    scripthashTxs stS4 0 none 25 =
        Except.ok [(1, none), (2, some 5)] ∧
    scripthashTxs stS4 0 (some 1) 25 = Except.ok [] ∧
    scripthashTxs stS4 0 (some 1) 25 ≠
      Except.ok [((2 : Nat), (some 5 : Option Nat))] := by
  exact ⟨by decide, by decide, by decide⟩

theorem precheckFrom_eq_ok (l : List (List Char)) : ∀ i,
    precheckFrom i l = Except.ok () ↔
      ∀ tx ∈ l, 120 ≤ tx.length ∧ tx.length < 800000 ∧ validHex tx = true := by
  induction l with
  | nil => intro i; simp [precheckFrom]
  | cons tx rest ih =>
    intro i
    simp only [precheckFrom]
    by_cases hsize : 120 ≤ tx.length ∧ tx.length < 800000
    · rw [if_neg (not_not_intro hsize)]
      by_cases hhex : validHex tx
      · rw [if_pos hhex, ih (i + 1)]
        simp [List.forall_mem_cons, hsize.1, hsize.2, hhex]
      · rw [if_neg hhex]
        simp only [List.forall_mem_cons]
        constructor
        · intro h
          cases h
        · intro h
          exact absurd h.1.2.2 hhex
    · rw [if_pos hsize]
      simp only [List.forall_mem_cons]
      constructor
      · intro h
        cases h
      · intro h
        exact absurd ⟨h.1.1, h.1.2.1⟩ hsize

theorem precheckFrom_error_names_offender (l : List (List Char)) : ∀ i e,
    precheckFrom i l = Except.error e →
    ∃ j tx, l[j]? = some tx ∧
      ((e = PrecheckErr.invalidSize (i + j) ∧
          ¬(120 ≤ tx.length ∧ tx.length < 800000)) ∨
        (e = PrecheckErr.invalidHex (i + j) ∧ validHex tx = false)) := by
  induction l with
  | nil => intro i e h; simp [precheckFrom] at h
  | cons tx rest ih =>
    intro i e h
    simp only [precheckFrom] at h
    by_cases hsize : 120 ≤ tx.length ∧ tx.length < 800000
    · rw [if_neg (not_not_intro hsize)] at h
      by_cases hhex : validHex tx
      · rw [if_pos hhex] at h
        obtain ⟨j, tx2, hg, hcase⟩ := ih (i + 1) e h
        refine ⟨j + 1, tx2, by simpa using hg, ?_⟩
        have harith : i + 1 + j = i + (j + 1) := by omega
        rw [harith] at hcase
        exact hcase
      · rw [if_neg hhex] at h
        refine ⟨0, tx, by simp, Or.inr ⟨?_, ?_⟩⟩
        · cases h
          rfl
        · revert hhex
          cases validHex tx <;> simp
    · rw [if_pos hsize] at h
      refine ⟨0, tx, by simp, Or.inl ⟨?_, hsize⟩⟩
      cases h
      rfl

/-- Claim C3 (amended): with at most 25 transactions, the `POST /txs/test`
pre-check passes (and the whole batch is forwarded upstream) iff every
element has hex length in `[120, 800_000)` — byte size in `[60, 400_000)` —
and parses as hex; any failure aborts with a BadRequest-class error naming
the index of an offending element, before anything is forwarded; in
particular a single-byte hex payload is rejected with the size error at
index 0. -/
theorem testAccept_sizeHexGate (txs : List (List Char))
    (hn : txs.length ≤ 25) :
    (testTxsHandler txs = Except.ok txs ↔
      ∀ tx ∈ txs, 120 ≤ tx.length ∧ tx.length < 800000 ∧
        validHex tx = true) ∧
    (∀ e, testTxsHandler txs = Except.error e →
      ∃ j tx, txs[j]? = some tx ∧
        ((e = PrecheckErr.invalidSize j ∧
            ¬(120 ≤ tx.length ∧ tx.length < 800000)) ∨
          (e = PrecheckErr.invalidHex j ∧ validHex tx = false))) ∧
    testTxsHandler [['a', 'b']] = Except.error (PrecheckErr.invalidSize 0) := by
  have hlen : ¬(txs.length > 25) := by omega
  refine ⟨?_, ?_, by decide⟩
  · unfold testTxsHandler
    rw [if_neg hlen]
    constructor
    · intro h
      cases hp : precheckFrom 0 txs with
      | ok u =>
        cases u
        exact (precheckFrom_eq_ok txs 0).mp hp
      | error e =>
        rw [hp] at h
        simp [Except.map] at h
    · intro h
      rw [(precheckFrom_eq_ok txs 0).mpr h]
      rfl
  · intro e h
    unfold testTxsHandler at h
    rw [if_neg hlen] at h
    cases hp : precheckFrom 0 txs with
    | ok u =>
      rw [hp] at h
      simp [Except.map] at h
    | error e2 =>
      rw [hp] at h
      simp only [Except.map] at h
      cases h
      obtain ⟨j, tx, hg, hcase⟩ := precheckFrom_error_names_offender txs 0 e hp
      exact ⟨j, tx, hg, by simpa using hcase⟩

/-- Claim C3 witness: a batch of one 120-char hex string (60 bytes) passes
the pre-check and is forwarded. -/
theorem testAccept_sizeHexGate_witness :
    testTxsHandler [List.replicate 120 '0'] =
      Except.ok [List.replicate 120 '0'] :=
  (testAccept_sizeHexGate [List.replicate 120 '0'] (by simp)).1.mpr (by decide)

/-- Claim C3 counterexample: an 800_000-char string of hex digits decodes to
exactly 400_000 bytes — inside the claim's inclusive `[60, 400_000]` range
and valid hex — yet the pre-check rejects it (the code requires the hex
length to be strictly below 800_000). -/
theorem testAccept_inclusiveBound_cex :
    precheckFrom 0 [List.replicate 800000 'a'] =
        Except.error (PrecheckErr.invalidSize 0) ∧
    60 ≤ (List.replicate 800000 'a').length / 2 ∧
    (List.replicate 800000 'a').length / 2 ≤ 400000 ∧
    validHex (List.replicate 800000 'a') = true := by
  have hlen : (List.replicate 800000 'a').length = 800000 :=
    List.length_replicate 800000 'a'
  have hc : ¬(120 ≤ (List.replicate 800000 'a').length ∧
      (List.replicate 800000 'a').length < 800000) := by
    rw [hlen]
    omega
  refine ⟨?_, by rw [hlen]; omega, by rw [hlen], ?_⟩
  · simp only [precheckFrom]
    rw [if_pos hc]
  · unfold validHex
    rw [hlen, Bool.and_eq_true]
    refine ⟨by decide, ?_⟩
    rw [List.all_eq_true]
    intro x hx
    rw [List.mem_replicate] at hx
    rw [hx.2]
    decide

/-- Claim C8: within the body-size and element-count limits, the multi-
scripthash POST endpoint never fails on malformed elements: the elements are
passed through `to_scripthash(..).ok()` with failures dropped, the history
query runs over exactly the successfully parsed subset, and an all-malformed
body behaves like an empty query. -/
theorem multiScripthash_dropsBadElements {α : Type}
    (histGroup : List (List Nat) → List α) (bodyLen : Nat)
    (inputs : List (List Char)) (hb : bodyLen ≤ (8 + 64) * MULTI_ADDRESS_LIMIT)
    (hn : inputs.length ≤ MULTI_ADDRESS_LIMIT) :
    multiScripthashTxs histGroup bodyLen inputs =
      Except.ok (histGroup (inputs.filterMap parse_scripthash)) ∧
    ((∀ s ∈ inputs, parse_scripthash s = none) →
      multiScripthashTxs histGroup bodyLen inputs =
        Except.ok (histGroup [])) := by
  have h1 : ¬(bodyLen > (8 + 64) * MULTI_ADDRESS_LIMIT) := by omega
  have h2 : ¬(inputs.length > MULTI_ADDRESS_LIMIT) := by omega
  constructor
  · unfold multiScripthashTxs
    rw [if_neg h1, if_neg h2]
  · intro hall
    unfold multiScripthashTxs
    rw [if_neg h1, if_neg h2, List.filterMap_eq_nil_iff.mpr hall]

/-- Claim C8 witness: a body holding one malformed element (`"zz"`) and one
well-formed 64-char scripthash is accepted, and the query runs over just
the parsed scripthash (history abstracted as the identity). -/
theorem multiScripthash_dropsBadElements_witness :
    multiScripthashTxs (fun l => l) 5 [['z', 'z'], List.replicate 64 '0'] =
      Except.ok [List.replicate 32 0] := by
  rw [(multiScripthash_dropsBadElements (fun l => l) 5
    [['z', 'z'], List.replicate 64 '0'] (by decide) (by decide)).1]
  decide

theorem findTxo_lookupTxos_notMem (store : Nat × Nat → Option Nat)
    (outs : List (Nat × Nat)) (o : Nat × Nat) (ho : o ∉ outs) :
    findTxo (lookupTxos store outs) o = none := by
  induction outs with
  | nil => rfl
  | cons a rest ih =>
    have hoa : o ≠ a := fun h => ho (h ▸ List.mem_cons_self a rest)
    have hor : o ∉ rest := fun h => ho (List.mem_cons_of_mem a h)
    cases hsa : store a with
    | none =>
      have hl : lookupTxos store (a :: rest) = lookupTxos store rest := by
        simp [lookupTxos, List.filterMap_cons, hsa]
      rw [hl]
      exact ih hor
    | some v =>
      have hl : lookupTxos store (a :: rest) =
          (a, v) :: lookupTxos store rest := by
        simp [lookupTxos, List.filterMap_cons, hsa]
      rw [hl]
      have hne : ¬((a, v).1 = o) := fun h => hoa h.symm
      simp only [findTxo, if_neg hne]
      exact ih hor

theorem findTxo_lookupTxos_mem (store : Nat × Nat → Option Nat)
    (outs : List (Nat × Nat)) (o : Nat × Nat) (ho : o ∈ outs) :
    findTxo (lookupTxos store outs) o = store o := by
  induction outs with
  | nil => cases ho
  | cons a rest ih =>
    cases hsa : store a with
    | none =>
      have hl : lookupTxos store (a :: rest) = lookupTxos store rest := by
        simp [lookupTxos, List.filterMap_cons, hsa]
      rw [hl]
      rcases List.mem_cons.mp ho with rfl | hmem
      · by_cases hmr : o ∈ rest
        · rw [ih hmr]
        · rw [findTxo_lookupTxos_notMem store rest o hmr, hsa]
      · exact ih hmem
    | some v =>
      have hl : lookupTxos store (a :: rest) =
          (a, v) :: lookupTxos store rest := by
        simp [lookupTxos, List.filterMap_cons, hsa]
      rw [hl]
      by_cases hoa : o = a
      · subst hoa
        simp [findTxo, hsa]
      · have hne : ¬((a, v).1 = o) := fun h => hoa h.symm
        simp only [findTxo, if_neg hne]
        rcases List.mem_cons.mp ho with rfl | hmem
        · exact absurd rfl hoa
        · exact ih hmem

theorem extractPrevouts_lookupTxos (store : Nat × Nat → Option Nat)
    (outs : List (Nat × Nat)) (inputs : List TxInM)
    (hsub : ∀ i ∈ inputs, i.hasPrevout = true →
      (i.prevTxid, i.prevVout) ∈ outs) :
    extractPrevouts (lookupTxos store outs) inputs =
      storePrevouts store inputs := by
  induction inputs with
  | nil => rfl
  | cons i rest ih =>
    have hrest : ∀ j ∈ rest, j.hasPrevout = true →
        (j.prevTxid, j.prevVout) ∈ outs :=
      fun j hj => hsub j (List.mem_cons_of_mem _ hj)
    by_cases hp : i.hasPrevout = true
    · have hmem := hsub i (List.mem_cons_self _ _) hp
      simp only [extractPrevouts, storePrevouts]
      rw [if_pos hp, if_pos hp,
        findTxo_lookupTxos_mem store outs _ hmem, ih hrest]
    · simp only [extractPrevouts, storePrevouts]
      rw [if_neg hp, if_neg hp]
      exact ih hrest

theorem filterMap_map_sublist {α β γ : Type} (l : List α) (f : α → Option β)
    (g : β → γ) (k : α → γ) (hc : ∀ a b, f a = some b → g b = k a) :
    List.Sublist ((l.filterMap f).map g) (l.map k) := by
  induction l with
  | nil => simp
  | cons a rest ih =>
    cases hfa : f a with
    | none =>
      rw [List.filterMap_cons, hfa, List.map_cons]
      exact ih.cons (k a)
    | some b =>
      rw [List.filterMap_cons, hfa, List.map_cons, List.map_cons,
        hc a b hfa]
      exact ih.cons₂ (k a)

/-- Claim C9: `prepare_txs` is total and order-preserving — it returns, in
the original order, exactly the transactions whose `TransactionValue`
construction succeeds, i.e. those whose every `has_prevout` input resolves
against the txo store and whose sigops are countable; a transaction with a
missing prevout contributes nothing to the response; the returned txids
form a sublist of the submitted txids. -/
theorem prepareTxs_filtersFailures (sigops : TxM → List Nat → Option Nat)
    (store : Nat × Nat → Option Nat) (txs : List (TxM × Option Nat)) :
    prepare_txs sigops store txs =
      txs.filterMap (fun p =>
        match storePrevouts store p.1.inputs with
        | none => none
        | some pv =>
          match sigops p.1 pv with
          | none => none
          | some n => some (TxValueM.mk p.1.txid n p.2)) ∧
    List.Sublist ((prepare_txs sigops store txs).map (fun v => v.txid))
      (txs.map (fun p => p.1.txid)) := by
  have hmain : prepare_txs sigops store txs =
      txs.filterMap (fun p =>
        match storePrevouts store p.1.inputs with
        | none => none
        | some pv =>
          match sigops p.1 pv with
          | none => none
          | some n => some (TxValueM.mk p.1.txid n p.2)) := by
    unfold prepare_txs
    apply List.filterMap_congr
    intro p hp
    have hmem : ∀ i ∈ p.1.inputs, i.hasPrevout = true →
        (i.prevTxid, i.prevVout) ∈ collectOutpoints txs := by
      intro i hi hprev
      unfold collectOutpoints
      refine List.mem_flatMap.mpr ⟨p, hp, ?_⟩
      unfold txOutpoints
      exact List.mem_map.mpr ⟨i, List.mem_filter.mpr ⟨hi, hprev⟩, rfl⟩
    unfold TransactionValue_new
    rw [extractPrevouts_lookupTxos store (collectOutpoints txs)
      p.1.inputs hmem]
  refine ⟨hmain, ?_⟩
  rw [hmain]
  apply filterMap_map_sublist
  intro a b hab
  split at hab
  · cases hab
  · split at hab
    · cases hab
    · cases hab
      rfl

/-- Claim C7 (amended): the shape checks behind the `script_type` chain are
pairwise exclusive with a single exception — a script beginning `OP_RETURN`
matches both `op_return` and `provably_unspendable` (indeed every
`op_return` script is provably unspendable).  Hence permuting the if/else
chain of `TxOutValue::new` preserves the reported type exactly when
`op_return` stays ahead of `provably_unspendable`. -/
theorem scriptChecksExclusive :
    (∀ (s : List Nat) (p q : String × (List Nat → Bool)),
      p ∈ classifiers → q ∈ classifiers → p.1 ≠ q.1 →
      p.2 s = true → q.2 s = true →
      ((p.1 = "op_return" ∧ q.1 = "provably_unspendable") ∨
        (p.1 = "provably_unspendable" ∧ q.1 = "op_return"))) ∧
    (∀ s : List Nat, script_is_op_return s = true →
      script_is_provably_unspendable s = true) := by
  constructor
  · intro s p q hp hq hne h1 h2
    simp only [classifiers, List.mem_cons, List.not_mem_nil, or_false]
      at hp hq
    rcases hp with rfl | rfl | rfl | rfl | rfl | rfl | rfl | rfl | rfl |
      rfl | rfl <;>
    rcases hq with rfl | rfl | rfl | rfl | rfl | rfl | rfl | rfl | rfl |
      rfl | rfl <;>
    · first
      | (exact absurd rfl hne)
      | (exact Or.inl ⟨rfl, rfl⟩)
      | (exact Or.inr ⟨rfl, rfl⟩)
      | (simp only [script_is_empty, script_is_op_return, script_is_p2pk,
          script_is_p2pkh, script_is_p2sh, script_is_v0_p2wpkh,
          script_is_v0_p2wsh, is_v1_p2tr, is_anchor,
          script_is_provably_unspendable, is_bare_multisig,
          unspendableFirst, Bool.and_eq_true, Bool.or_eq_true,
          decide_eq_true_eq, beq_iff_eq] at h1 h2
         exfalso
         omega)
  · intro s h
    simp only [script_is_op_return, Bool.and_eq_true, decide_eq_true_eq,
      beq_iff_eq] at h
    simp only [script_is_provably_unspendable, unspendableFirst,
      Bool.and_eq_true, decide_eq_true_eq, Bool.or_eq_true, beq_iff_eq]
    exact ⟨h.1, by omega⟩

/-- Claim C7 witness: the single-byte script `[OP_RETURN]` matches both the
`op_return` and the `provably_unspendable` checks, and the amended theorem
applied to that pair lands in its exceptional branch. -/
theorem scriptChecksExclusive_witness :
    script_is_op_return [0x6a] = true ∧
    script_is_provably_unspendable [0x6a] = true ∧
    (("op_return" = "op_return" ∧
        "provably_unspendable" = "provably_unspendable") ∨
      ("op_return" = "provably_unspendable" ∧
        "provably_unspendable" = "op_return")) :=
  ⟨by decide, by decide,
    scriptChecksExclusive.1 [0x6a] ("op_return", script_is_op_return)
      ("provably_unspendable", script_is_provably_unspendable)
      (by simp [classifiers]) (by simp [classifiers]) (by decide) (by decide)
      (by decide)⟩

/-- Claim C7 counterexample: moving the `provably_unspendable` check to the
front of the chain — a permutation of the source order — changes the
reported type of the script `[OP_RETURN]` from `"op_return"` to
`"provably_unspendable"`, so the classification is not independent of the
order of the checks. -/
theorem scriptChecksPermutation_cex :
    List.Perm classifiers classifiersFront ∧
    script_type [0x6a] = "op_return" ∧
    classifyChain classifiersFront [0x6a] = "provably_unspendable" ∧
    classifyChain classifiersFront [0x6a] ≠ classifyChain classifiers [0x6a] := by
  refine ⟨?_, by decide, by decide, by decide⟩
  exact @List.perm_middle (String × (List Nat → Bool))
    ("provably_unspendable", script_is_provably_unspendable)
    [("empty", script_is_empty), ("op_return", script_is_op_return),
      ("p2pk", script_is_p2pk), ("p2pkh", script_is_p2pkh),
      ("p2sh", script_is_p2sh), ("v0_p2wpkh", script_is_v0_p2wpkh),
      ("v0_p2wsh", script_is_v0_p2wsh), ("v1_p2tr", is_v1_p2tr),
      ("anchor", is_anchor)]
    [("multisig", is_bare_multisig)]
